import Mathlib

/-!
Verification development for the MCP-Client repository (two TypeScript
client variants: `src/mcp-client-openai.ts` and `src/mcp-client-claude.ts`).

The conversation-orchestration loops of both variants are embedded as
executable Lean functions.  External collaborators are modelled as oracles:

* the LLM chat API is an oracle `Nat → …` mapping the index of the outbound
  call (0-based, in the order the calls are issued) to the assistant reply
  or to an API failure;
* the tool host is an oracle from the literal `tools/call` parameter object
  (a key/value list, mirroring the JSON object the client sends) to either
  the result `content` value or an error message.

Both embedded `processQuery` functions additionally record a trace: the
transcript sent on every outbound LLM call, the model identifier of every
call, and the parameter object of every `tools/call` request.  These traces
are what the theorems below inspect.
-/

/-- A structured JSON value.  Numbers are modelled as integers (no claim in
this development depends on non-integral numbers). -/
inductive Json where
  | null : Json
  | bool (b : Bool) : Json
  | num (n : Int) : Json
  | str (s : String) : Json
  | arr (xs : List Json) : Json
  | obj (fields : List (String × Json)) : Json
deriving Repr

/-- JavaScript `Array.prototype.join(sep)`: empty list gives `""`, a single
element is returned as-is, otherwise elements are interleaved with `sep`. -/
def joinWith (sep : String) : List String → String
  | [] => ""
  | [x] => x
  | x :: y :: xs => x ++ sep ++ joinWith sep (y :: xs)

/-- Escaping of one character inside a JSON string literal, as performed by
`JSON.stringify` (covers the characters that occur in this development). -/
def escapeJsonChar (c : Char) : String :=
  if c = '"' then "\\\""
  else if c = '\\' then "\\\\"
  else if c = '\n' then "\\n"
  else if c = '\t' then "\\t"
  else if c = '\r' then "\\r"
  else toString c

/-- Escaping of a JSON string literal body, as performed by `JSON.stringify`. -/
def escapeJsonString (s : String) : String :=
  String.join (s.data.map escapeJsonChar)

mutual

/-- `JSON.stringify` on the modelled JSON values (compact form, key order
preserved, as JavaScript produces). -/
def Json.stringify : Json → String
  | .null => "null"
  | .bool true => "true"
  | .bool false => "false"
  | .num n => toString n
  | .str s => "\"" ++ escapeJsonString s ++ "\""
  | .arr xs => "[" ++ joinWith "," (Json.stringifyItems xs) ++ "]"
  | .obj fs => "\x7b" ++ joinWith "," (Json.stringifyFields fs) ++ "\x7d"

/-- Serialisations of the elements of a JSON array, in order. -/
def Json.stringifyItems : List Json → List String
  | [] => []
  | x :: xs => Json.stringify x :: Json.stringifyItems xs

/-- Serialisations of the fields of a JSON object, in order. -/
def Json.stringifyFields : List (String × Json) → List String
  | [] => []
  | (k, v) :: fs =>
      ("\"" ++ escapeJsonString k ++ "\":" ++ Json.stringify v) :: Json.stringifyFields fs

end

/-- Field access `j[k]` on a JSON object (first field with the key, as in a
JavaScript object literal); `none` for a missing field or a non-object. -/
def Json.getField (j : Json) (k : String) : Option Json :=
  match j with
  | .obj fs => fs.lookup k
  | _ => none

/-- Whether `j` is a JSON array (`Array.isArray`). -/
def Json.isArr : Json → Bool
  | .arr _ => true
  | _ => false

/-- The probe `item.type === "text"` used on tool-result content blocks. -/
def isTextBlock (j : Json) : Bool :=
  match j.getField "type" with
  | some (.str s) => s == "text"
  | _ => false

/-- The access `item.text` on a content block; a missing or non-string field
is rendered as the empty string (as `Array.prototype.join` renders it). -/
def textOf (j : Json) : String :=
  match j.getField "text" with
  | some (.str s) => s
  | _ => ""

/-- A `{type: "text", text: t}` content block as the tool host returns it. -/
def textBlock (t : String) : Json :=
  .obj [("type", .str "text"), ("text", .str t)]

/-- A tool descriptor as returned by the tool host's `tools/list`
(`name`, optional `description`, `inputSchema`). -/
structure ToolDescriptor where
  name : String
  description : Option String
  inputSchema : Json
deriving Repr

/-- The `function` part of an OpenAI function-calling schema entry. -/
structure OpenAIFunctionDef where
  name : String
  description : String
  parameters : Json
deriving Repr

/-- One entry of the tool list sent to the OpenAI API. -/
structure OpenAITool where
  type : String
  function : OpenAIFunctionDef
deriving Repr

/-- One entry of the tool list sent to the Anthropic API. -/
structure ClaudeTool where
  name : String
  description : Option String
  input_schema : Json
deriving Repr

namespace OpenAIClient

/-- The tool-schema adapter of the OpenAI variant
(`mcp-client-openai.ts` lines 100-107): `type: "function"`,
`name → name`, `description → description || ""`,
`inputSchema → parameters` unchanged. -/
def formatTools (tools : List ToolDescriptor) : List OpenAITool :=
  tools.map (fun t => ⟨"function", ⟨t.name, t.description.getD "", t.inputSchema⟩⟩)

end OpenAIClient

namespace ClaudeClient

/-- The tool-schema adapter of the Claude variant
(`mcp-client-claude.ts` lines 44-50): `name → name`,
`description → description` unchanged (no fallback for a missing
description), `inputSchema → input_schema` unchanged. -/
def formatTools (tools : List ToolDescriptor) : List ClaudeTool :=
  tools.map (fun t => ⟨t.name, t.description, t.inputSchema⟩)

end ClaudeClient

/-- One tool-invocation request inside an assistant turn.  `arguments` models
the structured value `JSON.parse(toolCall.function.arguments)` (the wire
format carries it as a JSON-encoded string; parsing is external and assumed
to succeed — no claim concerns a malformed arguments string). -/
structure ToolCall where
  id : String
  name : String
  arguments : Json
deriving Repr

/-- One entry of the OpenAI-variant conversation transcript (`messages`). -/
structure ChatMessage where
  role : String
  content : Option String
  tool_calls : List ToolCall
  tool_call_id : Option String
  name : Option String
deriving Repr

/-- One assistant reply from the OpenAI chat API
(`choices[0].message`): optional text and zero-or-more tool calls. -/
structure AssistantReply where
  content : Option String
  tool_calls : List ToolCall
deriving Repr

/-- Outcome of one OpenAI chat-API call: a reply, an `OpenAI.APIError`, or
any other thrown error (both failure kinds carry their message). -/
inductive LLMOutcome where
  | reply (m : AssistantReply)
  | apiError (msg : String)
  | otherError (msg : String)
deriving Repr

/-- The LLM oracle: the outcome of the `n`-th outbound chat-API call
(0-based, in the order the session issues them). -/
abbrev LLMOracle : Type := Nat → LLMOutcome

/-- The literal parameter object of a `tools/call` request, as a key/value
list (mirroring the JSON object the client constructs). -/
abbrev CallParams : Type := List (String × Json)

/-- The tool-host oracle: maps the `tools/call` parameter object to the
result `content` value, or to the message of the raised error. -/
abbrev HostOracle : Type := CallParams → Except String Json

/-- The fixed system message of the OpenAI variant (line 82-85). -/
def systemMessage : ChatMessage :=
  ⟨"system", some "You are a helpful assistant that can use tools.", [], none, none⟩

/-- The initial user message holding the query. -/
def userMessage (q : String) : ChatMessage := ⟨"user", some q, [], none, none⟩

/-- The assistant reply pushed onto the transcript (line 125). -/
def assistantMessage (r : AssistantReply) : ChatMessage :=
  ⟨"assistant", r.content, r.tool_calls, none, none⟩

/-- The `role: "tool"` result message pushed onto the transcript
(lines 166-171). -/
def toolMessage (tc : ToolCall) (txt : String) : ChatMessage :=
  ⟨"tool", some txt, [], some tc.id, some tc.name⟩

/-- Formatting of a tool result in the OpenAI variant (lines 154-163):
an array keeps only its `type === "text"` blocks and joins their `text`
fields with newlines; any other shape is `JSON.stringify`-ed. -/
def formatToolResultOpenAI (content : Json) : String :=
  match content with
  | .arr items => joinWith "\n" ((items.filter isTextBlock).map textOf)
  | c => Json.stringify c

namespace OpenAIClient

/-- The `tools/call` parameter object of the OpenAI variant
(lines 146-149): keys `name` and `arguments`. -/
def openaiCallParams (nm : String) (args : Json) : CallParams :=
  [("name", Json.str nm), ("arguments", args)]

/-- The `[Calling tool … with args …]` notice pushed into the answer
(line 138). -/
def callingNotice (nm : String) (args : Json) : String :=
  "[Calling tool " ++ nm ++ " with args " ++ Json.stringify args ++ "]"

/-- The `[Error calling tool: …]` diagnostic pushed into the answer
(line 197). -/
def toolErrorNotice (msg : String) : String :=
  "[Error calling tool: " ++ msg ++ "]"

/-- Mutable state of one `processQuery` session, plus the recorded trace
(`sent`: the transcript of every outbound LLM call; `toolParams`: the
parameter object of every `tools/call` request). -/
structure OAState where
  messages : List ChatMessage
  finalText : List String
  nCalls : Nat
  sent : List (List ChatMessage)
  toolParams : List CallParams
deriving Repr

/-- One outbound chat-API call: records the transcript being sent,
increments the call counter, and returns the oracle's outcome. -/
def oaCallLLM (llm : LLMOracle) (s : OAState) : OAState × LLMOutcome :=
  ({ s with nCalls := s.nCalls + 1, sent := s.sent ++ [s.messages] }, llm s.nCalls)

/-- Push one string onto `finalText`. -/
def pushText (s : OAState) (t : String) : OAState :=
  { s with finalText := s.finalText ++ [t] }

/-- The JavaScript truthiness check `if (message.content)` before pushing
assistant text: `null` and the empty string are skipped. -/
def pushContentIfTruthy (s : OAState) (c : Option String) : OAState :=
  match c with
  | some t => if t = "" then s else pushText s t
  | none => s

/-- The body of the `for (const toolCall of responseMessage.tool_calls)`
loop (lines 134-200): push the calling notice, issue `tools/call`; on
success append the tool result to the transcript and make a follow-up LLM
call, pushing its text and — if it requests more tools — only the
`[Additional tool calls detected]` marker; any error inside the `try`
(tool failure or follow-up API failure) is caught and pushed as a
diagnostic onto the answer. -/
def oaToolStep (llm : LLMOracle) (host : HostOracle) (s : OAState) (tc : ToolCall) :
    OAState :=
  let s := pushText s (callingNotice tc.name tc.arguments)
  let params := openaiCallParams tc.name tc.arguments
  let s := { s with toolParams := s.toolParams ++ [params] }
  match host params with
  | .error msg => pushText s (toolErrorNotice msg)
  | .ok content =>
    let s := { s with messages := s.messages ++ [toolMessage tc (formatToolResultOpenAI content)] }
    let step := oaCallLLM llm s
    let s := step.1
    match step.2 with
    | .apiError msg => pushText s (toolErrorNotice msg)
    | .otherError msg => pushText s (toolErrorNotice msg)
    | .reply next =>
      let s := pushContentIfTruthy s next.content
      if next.tool_calls.length > 0 then pushText s "[Additional tool calls detected]" else s

/-- Result of one OpenAI-variant `processQuery` session: the returned
string plus the final state and the recorded trace. -/
structure OAResult where
  answer : String
  messages : List ChatMessage
  finalText : List String
  nCalls : Nat
  sent : List (List ChatMessage)
  toolParams : List CallParams
deriving Repr

/-- The conversation-orchestration loop of the OpenAI variant
(`mcp-client-openai.ts` lines 76-215): initial transcript
`[system, user(query)]`, one initial LLM call, the assistant reply is
appended and its truthy text pushed, then each of its tool calls is
processed by `oaToolStep`; a failure of the initial call is returned as an
error-prefixed string (`Error: …` for `OpenAI.APIError`, otherwise
`Unexpected error occurred: …`); finally `finalText` is joined with
newlines. -/
def processQuery (llm : LLMOracle) (host : HostOracle) (query : String) : OAResult :=
  let s0 : OAState := ⟨[systemMessage, userMessage query], [], 0, [], []⟩
  let step := oaCallLLM llm s0
  let s := step.1
  match step.2 with
  | .apiError msg =>
      ⟨"Error: " ++ msg, s.messages, s.finalText, s.nCalls, s.sent, s.toolParams⟩
  | .otherError msg =>
      ⟨"Unexpected error occurred: " ++ msg, s.messages, s.finalText, s.nCalls, s.sent,
        s.toolParams⟩
  | .reply r =>
    let s := { s with messages := s.messages ++ [assistantMessage r] }
    let s := pushContentIfTruthy s r.content
    let s := r.tool_calls.foldl (oaToolStep llm host) s
    ⟨joinWith "\n" s.finalText, s.messages, s.finalText, s.nCalls, s.sent, s.toolParams⟩

end OpenAIClient

/-- One content block of an Anthropic assistant reply: a text block or a
`tool_use` block (correlation id, tool name, structured input). -/
inductive ClaudeBlock where
  | text (t : String) : ClaudeBlock
  | toolUse (id : String) (name : String) (input : Json) : ClaudeBlock
deriving Repr

/-- Whether a content block is a `tool_use` block. -/
def ClaudeBlock.isToolUse : ClaudeBlock → Bool
  | .toolUse _ _ _ => true
  | .text _ => false

/-- The content of one Claude-variant transcript message: a plain string
(the user query), an assistant block list, or a `tool_result` wrapper
(whose inner content is one text block holding the given string). -/
inductive ClaudeMessageContent where
  | text (s : String) : ClaudeMessageContent
  | blocks (bs : List ClaudeBlock) : ClaudeMessageContent
  | toolResult (toolUseId : String) (resultText : String) : ClaudeMessageContent
deriving Repr

/-- One entry of the Claude-variant conversation transcript (`messages`). -/
structure ClaudeMessage where
  role : String
  content : ClaudeMessageContent
deriving Repr

/-- One assistant reply from the Anthropic messages API. -/
structure ClaudeReply where
  content : List ClaudeBlock
deriving Repr

/-- The record of one outbound Anthropic API call: the `model` parameter
and the transcript sent. -/
structure ClaudeCall where
  model : String
  messages : List ClaudeMessage
deriving Repr

/-- The Claude-variant LLM oracle: outcome of the `n`-th outbound call
(0-based); `.error` models a thrown API error (never caught by this
variant). -/
abbrev ClaudeLLMOracle : Type := Nat → Except String ClaudeReply

namespace ClaudeClient

/-- The `tools/call` parameter object of the Claude variant
(`mcp-client-claude.ts` line 74): keys `name` and `args` (not
`arguments`). -/
def claudeCallParams (nm : String) (input : Json) : CallParams :=
  [("name", Json.str nm), ("args", input)]

/-- Formatting of a tool result in the Claude variant (line 84): the
content is always `JSON.stringify`-ed, whatever its shape. -/
def claudeToolResultText (content : Json) : String :=
  Json.stringify content

/-- Mutable state of one Claude-variant `processQuery` session, including
the current value of the mutable `response` variable and the recorded
trace (`calls`: model and transcript of every outbound LLM call;
`toolParams`: the parameter object of every `tools/call` request). -/
structure CLState where
  messages : List ClaudeMessage
  texts : List String
  nCalls : Nat
  calls : List ClaudeCall
  toolParams : List CallParams
  response : ClaudeReply
deriving Repr

/-- One outbound Anthropic API call (`anthropic.messages.create`): records
the model and the transcript being sent, increments the call counter, and
returns the oracle's outcome. -/
def claudeCreate (llm : ClaudeLLMOracle) (model : String) (s : CLState) :
    CLState × Except String ClaudeReply :=
  ({ s with nCalls := s.nCalls + 1, calls := s.calls ++ [⟨model, s.messages⟩] },
    llm s.nCalls)

/-- The body of the `for (const content of response.content)` loop
(lines 69-101) for one block.  A text block pushes its text.  A `tool_use`
block issues `tools/call` (an error propagates: there is no catch), then
pushes the assistant turn holding the CURRENT `response.content` (the
mutable variable, not necessarily the turn the block came from) and a
`tool_result` turn, makes a follow-up call with the hard-coded model
`"claude-3-5-sonnet-20241022"`, reassigns `response`, and pushes the new
reply's first content block's text when it is a text block.  Returns the
new state and `some errorMessage` when an uncaught error was raised. -/
def clBlockStep (llm : ClaudeLLMOracle) (host : HostOracle) (b : ClaudeBlock)
    (s : CLState) : CLState × Option String :=
  match b with
  | .text t => ({ s with texts := s.texts ++ [t] }, none)
  | .toolUse id nm input =>
    let params := claudeCallParams nm input
    let s := { s with toolParams := s.toolParams ++ [params] }
    match host params with
    | .error e => (s, some e)
    | .ok toolContent =>
      let s := { s with messages := s.messages ++
        [⟨"assistant", .blocks s.response.content⟩,
         ⟨"user", .toolResult id (claudeToolResultText toolContent)⟩] }
      let step := claudeCreate llm "claude-3-5-sonnet-20241022" s
      let s := step.1
      match step.2 with
      | .error e => (s, some e)
      | .ok r =>
        let s := { s with response := r }
        let s := match r.content.head? with
          | some (.text t) => { s with texts := s.texts ++ [t] }
          | _ => s
        (s, none)

/-- The `for … of` loop over the FIRST reply's content blocks (the iterated
array is fixed when the loop starts; reassigning `response` inside the
body does not change it).  Stops early when an uncaught error is raised. -/
def clLoop (llm : ClaudeLLMOracle) (host : HostOracle) :
    List ClaudeBlock → CLState → CLState × Option String
  | [], s => (s, none)
  | b :: rest, s =>
    match clBlockStep llm host b s with
    | (s', some e) => (s', some e)
    | (s', none) => clLoop llm host rest s'

/-- Result of one Claude-variant `processQuery` session: `.ok answer` when
the promise resolves, `.error msg` when an uncaught error propagates out
of `processQuery`, plus the final state and the recorded trace. -/
structure ClaudeResult where
  result : Except String String
  messages : List ClaudeMessage
  texts : List String
  nCalls : Nat
  calls : List ClaudeCall
  toolParams : List CallParams
deriving Repr

/-- The conversation-orchestration loop of the Claude variant
(`mcp-client-claude.ts` lines 52-106): initial transcript
`[user(query)]`, one initial call whose `model` parameter is the
configured `ANTHROPIC_MODEL` value (`cfgModel`), then one pass of the
`for` loop over that first reply's content blocks followed by `break`;
the answer is the newline-join of the collected texts. -/
def processQuery (cfgModel : String) (llm : ClaudeLLMOracle) (host : HostOracle)
    (query : String) : ClaudeResult :=
  let s0 : CLState := ⟨[⟨"user", .text query⟩], [], 0, [], [], ⟨[]⟩⟩
  let step := claudeCreate llm cfgModel s0
  let s := step.1
  match step.2 with
  | .error e => ⟨.error e, s.messages, s.texts, s.nCalls, s.calls, s.toolParams⟩
  | .ok r =>
    let s := { s with response := r }
    let run := clLoop llm host r.content s
    let s := run.1
    let res : Except String String :=
      match run.2 with
      | some e => .error e
      | none => .ok (joinWith "\n" s.texts)
    ⟨res, s.messages, s.texts, s.nCalls, s.calls, s.toolParams⟩

end ClaudeClient

/-- Number of `role: "tool"` messages in `rest` answering correlation id
`id`. -/
def toolResultCount (rest : List ChatMessage) (id : String) : Nat :=
  (rest.filter (fun m => m.role == "tool" && m.tool_call_id == some id)).length

/-- The transcript invariant of the specification: every tool request in
the transcript is followed, later in the list, by exactly one tool-result
message carrying its correlation id. -/
def allRequestsAnswered : List ChatMessage → Bool
  | [] => true
  | m :: rest =>
      m.tool_calls.all (fun tc => toolResultCount rest tc.id == 1)
        && allRequestsAnswered rest

/-- A tool host that answers every request with one text block `"r"`. -/
def hostOk : HostOracle := fun _ => .ok (Json.arr [textBlock "r"])

/-- A tool host whose every invocation raises `"boom"`. -/
def hostFail : HostOracle := fun _ => .error "boom"

/-- LLM script: the first reply requests tools `f` and `g` (ids `id1`,
`id2`) with empty-object arguments; every later reply is the plain text
`"done"`. -/
def llmTwoRequests : LLMOracle := fun n =>
  if n == 0 then
    .reply ⟨none, [⟨"id1", "f", Json.obj []⟩, ⟨"id2", "g", Json.obj []⟩]⟩
  else .reply ⟨some "done", []⟩

/-- C1: the claim says every transcript sent to the LLM has all tool
requests answered.  Evaluating the OpenAI variant on a first reply holding
two tool requests (both tools succeeding) shows the opposite: the second
outbound transcript still contains the unanswered request `id2`, so not
every sent transcript satisfies the invariant. -/
theorem c1_transcript_sent_with_unanswered_request :
    ((OpenAIClient.processQuery llmTwoRequests hostOk "q").sent.all
        allRequestsAnswered) = false
      ∧ (OpenAIClient.processQuery llmTwoRequests hostOk "q").nCalls = 3 :=
  ⟨rfl, rfl⟩

/-- LLM script: the first reply requests tool `f` (id `id1`); the second
reply carries text `"more"` and a further tool request `g` (id `id2`). -/
def llmPendingFollowUp : LLMOracle := fun n =>
  if n == 0 then .reply ⟨none, [⟨"id1", "f", Json.obj []⟩]⟩
  else .reply ⟨some "more", [⟨"id2", "g", Json.obj []⟩]⟩

/-- C2: the claim says the loop keeps resending until an assistant turn
has no tool requests.  Evaluating the OpenAI variant on a follow-up reply
that still requests a tool shows `processQuery` returning after 2 LLM
calls with only 1 `tools/call` issued — the request of the latest
assistant turn is left unexecuted and only the marker
`[Additional tool calls detected]` is appended to the answer. -/
theorem c2_returns_with_pending_requests :
    (OpenAIClient.processQuery llmPendingFollowUp hostOk "q").nCalls = 2
      ∧ (OpenAIClient.processQuery llmPendingFollowUp hostOk "q").toolParams.length = 1
      ∧ (OpenAIClient.processQuery llmPendingFollowUp hostOk "q").answer
          = "[Calling tool f with args \x7b\x7d]\nmore\n[Additional tool calls detected]" :=
  ⟨rfl, rfl, rfl⟩

/-- LLM script: the only reply requests tool `f` (id `id1`). -/
def llmOneRequest : LLMOracle := fun _ =>
  .reply ⟨none, [⟨"id1", "f", Json.obj []⟩]⟩

/-- C3, counterexample: with `N = 1` requested tool whose invocation fails,
the claim says the final transcript contains 1 ToolResult; the OpenAI
variant's final transcript contains none — the diagnostic goes into the
returned answer instead. -/
theorem c3_counterexample :
    ((OpenAIClient.processQuery llmOneRequest hostFail "q").messages.filter
        (fun m => m.role == "tool")).length = 0
      ∧ (OpenAIClient.processQuery llmOneRequest hostFail "q").answer
          = "[Calling tool f with args \x7b\x7d]\n[Error calling tool: boom]" :=
  ⟨rfl, rfl⟩

/-- A tool host that raises `emsg` for tool `f` and answers one text block
`"ok"` for every other request. -/
def hostFailF (emsg : String) : HostOracle := fun params =>
  match params with
  | ("name", Json.str "f") :: _ => .error emsg
  | _ => .ok (Json.arr [textBlock "ok"])

/-- If a joined list starts with a non-empty string, the join is
non-empty. -/
theorem joinWith_cons_ne_empty (sep x : String) (xs : List String)
    (hx : x ≠ "") : joinWith sep (x :: xs) ≠ "" := by
  cases xs with
  | nil => simpa [joinWith] using hx
  | cons y ys =>
      intro h
      apply hx
      have hlen := congrArg String.length h
      simp [joinWith, String.length_append] at hlen
      have : x.length = 0 := by omega
      exact String.ext (List.length_eq_zero.mp this)

/-- C3, amended: in the OpenAI variant a failing tool invocation is caught
and converted into the diagnostic `[Error calling tool: <message>]`
appended to the final answer — not into a transcript ToolResult; the loop
continues with the remaining requests (here tool `g`, which does get a
ToolResult and a follow-up LLM call), and the returned answer is
non-empty. -/
theorem c3_amended (emsg : String) :
    (OpenAIClient.processQuery llmTwoRequests (hostFailF emsg) "q").finalText
        = ["[Calling tool f with args \x7b\x7d]",
           "[Error calling tool: " ++ emsg ++ "]",
           "[Calling tool g with args \x7b\x7d]", "done"]
      ∧ ((OpenAIClient.processQuery llmTwoRequests (hostFailF emsg) "q").messages.filter
            (fun m => m.role == "tool")).map (fun m => m.tool_call_id) = [some "id2"]
      ∧ (OpenAIClient.processQuery llmTwoRequests (hostFailF emsg) "q").answer
          = joinWith "\n"
              (OpenAIClient.processQuery llmTwoRequests (hostFailF emsg) "q").finalText
      ∧ (OpenAIClient.processQuery llmTwoRequests (hostFailF emsg) "q").answer ≠ "" :=
  ⟨rfl, rfl, rfl,
    joinWith_cons_ne_empty "\n" "[Calling tool f with args \x7b\x7d]" _ (by decide)⟩

/-- The texts of the `tool_result` turns of a Claude-variant transcript,
in order. -/
def claudeResultTexts (msgs : List ClaudeMessage) : List String :=
  msgs.filterMap (fun m =>
    match m.content with
    | .toolResult _ t => some t
    | _ => none)

/-- Claude-variant LLM script: the first reply is one `tool_use` of tool
`f` (id `id1`) with empty-object input; every later reply is the text
`"done"`. -/
def clLlmOneUse : ClaudeLLMOracle := fun n =>
  if n == 0 then .ok ⟨[ClaudeBlock.toolUse "id1" "f" (Json.obj [])]⟩
  else .ok ⟨[ClaudeBlock.text "done"]⟩

/-- A tool host that answers every request with the two text blocks `"a"`
and `"b"`. -/
def hostTwoBlocks : HostOracle := fun _ =>
  .ok (Json.arr [textBlock "a", textBlock "b"])

/-- C4, counterexample: the claim says an array-of-text-blocks result is
joined with newlines (`"a\nb"` here).  The Claude variant instead
`JSON.stringify`-s the content, so the ToolResult text appended to the
transcript is the serialised array, not the join. -/
theorem c4_counterexample :
    claudeResultTexts
        (ClaudeClient.processQuery "m" clLlmOneUse hostTwoBlocks "q").messages
      = ["[\x7b\"type\":\"text\",\"text\":\"a\"\x7d,\x7b\"type\":\"text\",\"text\":\"b\"\x7d]"]
      ∧ claudeResultTexts
          (ClaudeClient.processQuery "m" clLlmOneUse hostTwoBlocks "q").messages
        ≠ ["a\nb"] :=
  ⟨rfl, by decide⟩

/-- C4, amended: the OpenAI variant joins the `text` fields of the
text-typed blocks of an array result with newlines and `JSON.stringify`-s
any non-array result; the Claude variant `JSON.stringify`-s every result,
including an array of text blocks. -/
theorem c4_amended (items : List Json) (c : Json)
    (h1 : ∀ j ∈ items, isTextBlock j = true) (h2 : Json.isArr c = false) :
    formatToolResultOpenAI (Json.arr items) = joinWith "\n" (items.map textOf)
      ∧ formatToolResultOpenAI c = Json.stringify c
      ∧ ClaudeClient.claudeToolResultText (Json.arr items)
          = Json.stringify (Json.arr items) := by
  refine ⟨?_, ?_, rfl⟩
  · simp only [formatToolResultOpenAI]
    rw [List.filter_eq_self.mpr h1]
  · cases c with
    | arr xs => simp [Json.isArr] at h2
    | null => rfl
    | bool b => rfl
    | num n => rfl
    | str s => rfl
    | obj fs => rfl

/-- C4, witness for the amended statement at concrete inputs. -/
theorem c4_amended_witness :
    formatToolResultOpenAI (Json.arr [textBlock "a", textBlock "b"])
        = joinWith "\n" ([textBlock "a", textBlock "b"].map textOf)
      ∧ formatToolResultOpenAI (Json.str "x") = Json.stringify (Json.str "x")
      ∧ ClaudeClient.claudeToolResultText (Json.arr [textBlock "a", textBlock "b"])
          = Json.stringify (Json.arr [textBlock "a", textBlock "b"]) :=
  c4_amended [textBlock "a", textBlock "b"] (Json.str "x") (by decide) (by decide)

/-- LLM script: the first reply has text `"I will call f"` plus a request
for tool `f` (id `id1`); every later reply is the text `"done"`. -/
def llmTextAndRequest : LLMOracle := fun n =>
  if n == 0 then .reply ⟨some "I will call f", [⟨"id1", "f", Json.obj []⟩]⟩
  else .reply ⟨some "done", []⟩

/-- C5, counterexample: the assistant turns of this session carry the
texts `"I will call f"` and `"done"`, so the claim's answer would be
`"I will call f\ndone"`; the OpenAI variant's actual answer additionally
contains the `[Calling tool …]` notice, hence is not the concatenation of
assistant text and nothing else. -/
theorem c5_counterexample :
    (OpenAIClient.processQuery llmTextAndRequest hostOk "q").answer
        = "I will call f\n[Calling tool f with args \x7b\x7d]\ndone"
      ∧ (OpenAIClient.processQuery llmTextAndRequest hostOk "q").answer
          ≠ "I will call f\ndone" :=
  ⟨rfl, by decide⟩

/-- LLM script with variable texts: first reply has text `c1` and a
request for tool `f`; every later reply is the text `c2`. -/
def scriptLLM (c1 c2 : String) : LLMOracle := fun n =>
  if n == 0 then .reply ⟨some c1, [⟨"id1", "f", Json.obj []⟩]⟩
  else .reply ⟨some c2, []⟩

/-- C5, amended: the final answer is the newline-join of every entry
pushed onto the output list in order — the assistant texts interleaved
with the `[Calling tool … with args …]` notice of each tool invocation
(and, in other runs, error diagnostics and the
`[Additional tool calls detected]` marker) — not assistant text alone. -/
theorem c5_amended (c1 c2 : String) (h1 : c1 ≠ "") (h2 : c2 ≠ "") :
    (OpenAIClient.processQuery (scriptLLM c1 c2) hostOk "q").answer
      = joinWith "\n" [c1, "[Calling tool f with args \x7b\x7d]", c2] := by
  simp [OpenAIClient.processQuery, OpenAIClient.oaCallLLM, scriptLLM,
    OpenAIClient.oaToolStep, OpenAIClient.pushContentIfTruthy, OpenAIClient.pushText,
    hostOk, h1, h2, OpenAIClient.callingNotice, OpenAIClient.openaiCallParams]
  rfl

/-- C5, witness for the amended statement at concrete inputs. -/
theorem c5_amended_witness :
    (OpenAIClient.processQuery (scriptLLM "a" "b") hostOk "q").answer
      = joinWith "\n" ["a", "[Calling tool f with args \x7b\x7d]", "b"] :=
  c5_amended "a" "b" (by decide) (by decide)

/-- LLM script: the first reply requests tools `f` and `g`; every later
call fails with an `OpenAI.APIError` carrying message `"rate limited"`. -/
def llmFollowUpFails : LLMOracle := fun n =>
  if n == 0 then
    .reply ⟨none, [⟨"id1", "f", Json.obj []⟩, ⟨"id2", "g", Json.obj []⟩]⟩
  else .apiError "rate limited"

set_option maxRecDepth 4000 in
/-- C6, counterexample: an LLM API failure on a follow-up call is NOT
fatal and NOT surfaced as an error-prefixed string in the OpenAI variant:
the per-tool `catch` converts it into `[Error calling tool: …]`, the loop
continues to the second tool (2 `tools/call` requests, 3 LLM calls), and
the returned answer does not start with `"Error"`. -/
theorem c6_counterexample :
    (OpenAIClient.processQuery llmFollowUpFails hostOk "q").answer
        = "[Calling tool f with args \x7b\x7d]\n[Error calling tool: rate limited]\n[Calling tool g with args \x7b\x7d]\n[Error calling tool: rate limited]"
      ∧ (OpenAIClient.processQuery llmFollowUpFails hostOk "q").toolParams.length = 2
      ∧ (OpenAIClient.processQuery llmFollowUpFails hostOk "q").nCalls = 3
      ∧ (OpenAIClient.processQuery llmFollowUpFails hostOk "q").answer.data.take 5
          ≠ "Error".data :=
  ⟨rfl, rfl, rfl, by decide⟩

/-- C6, amended: only a failure of the INITIAL LLM call is fatal to the
session and surfaced to the caller as an error-prefixed string in the
OpenAI variant (`Error: …` for an `OpenAI.APIError`, otherwise
`Unexpected error occurred: …`); a follow-up call failure is absorbed by
the per-tool handler (see the counterexample); in the Claude variant the
failure propagates out of `processQuery` uncaught instead of being
returned as a string. -/
theorem c6_amended (m q : String) :
    (OpenAIClient.processQuery (fun _ => .apiError m) hostOk q).answer = "Error: " ++ m
      ∧ (OpenAIClient.processQuery (fun _ => .otherError m) hostOk q).answer
          = "Unexpected error occurred: " ++ m
      ∧ (ClaudeClient.processQuery "mdl" (fun _ => .error m) hostOk q).result
          = .error m :=
  ⟨rfl, rfl, rfl⟩

/-- C7, counterexample: for a descriptor with an absent description the
claim says the adapted schema's description is the empty string; the
Claude adapter leaves it absent (`none`), which is not `some ""`. -/
theorem c7_counterexample :
    (ClaudeClient.formatTools [⟨"t", none, Json.obj []⟩]).map
        (fun ct => ct.description) = [none]
      ∧ (none : Option String) ≠ some "" :=
  ⟨rfl, by decide⟩

/-- C7, amended: both adapters map `name → name` and pass `inputSchema`
through verbatim, preserving input order; the OpenAI adapter substitutes
the empty string for an absent description, while the Claude adapter
passes the description through unchanged (absent stays absent). -/
theorem c7_amended (ts : List ToolDescriptor) :
    (OpenAIClient.formatTools ts).map (fun t => t.function.name)
        = ts.map ToolDescriptor.name
      ∧ (OpenAIClient.formatTools ts).map (fun t => t.function.description)
          = ts.map (fun t => t.description.getD "")
      ∧ (OpenAIClient.formatTools ts).map (fun t => t.function.parameters)
          = ts.map ToolDescriptor.inputSchema
      ∧ (ClaudeClient.formatTools ts).map (fun t => t.name) = ts.map ToolDescriptor.name
      ∧ (ClaudeClient.formatTools ts).map (fun t => t.description)
          = ts.map ToolDescriptor.description
      ∧ (ClaudeClient.formatTools ts).map (fun t => t.input_schema)
          = ts.map ToolDescriptor.inputSchema := by
  simp [OpenAIClient.formatTools, ClaudeClient.formatTools]

/-- The texts of the text blocks of a content list, in order. -/
def textsOf : List ClaudeBlock → List String
  | [] => []
  | .text t :: bs => t :: textsOf bs
  | .toolUse _ _ _ :: bs => textsOf bs

/-- Running the Claude-variant block loop over content with no `tool_use`
block only appends the block texts; no further LLM or tool-host call is
made and no error can arise. -/
theorem clLoop_no_toolUse (llm : ClaudeLLMOracle) (host : HostOracle)
    (bs : List ClaudeBlock) (s : ClaudeClient.CLState)
    (h : ∀ b ∈ bs, ClaudeBlock.isToolUse b = false) :
    ClaudeClient.clLoop llm host bs s
      = ({ s with texts := s.texts ++ textsOf bs }, none) := by
  induction bs generalizing s with
  | nil => simp [ClaudeClient.clLoop, textsOf]
  | cons b bs ih =>
    cases b with
    | text t =>
        simp only [ClaudeClient.clLoop, ClaudeClient.clBlockStep]
        rw [ih _ (fun b hb => h b (List.mem_cons_of_mem _ hb))]
        simp [textsOf]
    | toolUse i nm a =>
        have hb := h _ (List.mem_cons_self _ _)
        simp [ClaudeBlock.isToolUse] at hb

/-- LLM script whose every reply is the plain text `"4"` (OpenAI shape). -/
def oaLlmFour : LLMOracle := fun _ => .reply ⟨some "4", []⟩

/-- LLM script whose every reply is the single text block `"4"` (Claude
shape). -/
def clLlmFour : ClaudeLLMOracle := fun _ => .ok ⟨[ClaudeBlock.text "4"]⟩

/-- C8: in both variants, a session whose first LLM reply contains no tool
requests makes exactly one LLM call, issues no `tools/call` request, and
returns that reply's text (the truthy text for the OpenAI variant, the
newline-join of the text blocks for the Claude variant). -/
theorem c8_single_llm_call (llm : LLMOracle) (host : HostOracle) (q : String)
    (r : AssistantReply) (h1 : llm 0 = .reply r) (h2 : r.tool_calls = [])
    (cm : String) (cllm : ClaudeLLMOracle) (chost : HostOracle) (cq : String)
    (blocks : List ClaudeBlock) (h3 : cllm 0 = .ok ⟨blocks⟩)
    (h4 : ∀ b ∈ blocks, ClaudeBlock.isToolUse b = false) :
    ((OpenAIClient.processQuery llm host q).nCalls = 1
      ∧ (OpenAIClient.processQuery llm host q).toolParams = []
      ∧ (OpenAIClient.processQuery llm host q).answer
          = joinWith "\n"
              (match r.content with
               | some c => if c = "" then [] else [c]
               | none => []))
    ∧ ((ClaudeClient.processQuery cm cllm chost cq).nCalls = 1
      ∧ (ClaudeClient.processQuery cm cllm chost cq).toolParams = []
      ∧ (ClaudeClient.processQuery cm cllm chost cq).result
          = .ok (joinWith "\n" (textsOf blocks))) := by
  constructor
  · simp only [OpenAIClient.processQuery, OpenAIClient.oaCallLLM, h1, h2,
      List.foldl_nil, OpenAIClient.pushContentIfTruthy]
    cases r.content with
    | none => exact ⟨rfl, rfl, rfl⟩
    | some c =>
        by_cases hc : c = "" <;> simp [hc, OpenAIClient.pushText]
  · simp only [ClaudeClient.processQuery, ClaudeClient.claudeCreate, h3]
    rw [clLoop_no_toolUse _ _ _ _ h4]
    exact ⟨rfl, rfl, rfl⟩

/-- C8, witness: the Scenario-A session ("What is 2+2?" answered by plain
text `"4"`) makes exactly 1 LLM call, 0 tool invocations, and returns
`"4"`, in both variants. -/
theorem c8_witness :
    ((OpenAIClient.processQuery oaLlmFour hostOk "What is 2+2?").nCalls = 1
      ∧ (OpenAIClient.processQuery oaLlmFour hostOk "What is 2+2?").toolParams = []
      ∧ (OpenAIClient.processQuery oaLlmFour hostOk "What is 2+2?").answer = "4")
    ∧ ((ClaudeClient.processQuery "mdl" clLlmFour hostOk "What is 2+2?").nCalls = 1
      ∧ (ClaudeClient.processQuery "mdl" clLlmFour hostOk "What is 2+2?").toolParams = []
      ∧ (ClaudeClient.processQuery "mdl" clLlmFour hostOk "What is 2+2?").result
          = .ok "4") :=
  c8_single_llm_call oaLlmFour hostOk "What is 2+2?" ⟨some "4", []⟩ rfl rfl
    "mdl" clLlmFour hostOk "What is 2+2?" [ClaudeBlock.text "4"] rfl (by decide)

/-- C9: the OpenAI variant sends the structured arguments under the
`arguments` key of the `tools/call` parameters, as the contract requires;
the Claude variant sends them under the key `args` instead, so a lookup of
`arguments` in the parameter object it sends finds nothing — the tool host
does not receive the arguments the LLM supplied.  The last two conjuncts
evaluate full sessions: the OpenAI trace carries `name`/`arguments`
objects, the Claude trace carries `name`/`args` objects. -/
theorem c9_tools_call_params (nm : String) (a : Json) :
    (OpenAIClient.openaiCallParams nm a).lookup "arguments" = some a
      ∧ (ClaudeClient.claudeCallParams nm a).lookup "arguments" = none
      ∧ (ClaudeClient.claudeCallParams nm a).lookup "args" = some a
      ∧ (OpenAIClient.processQuery llmOneRequest hostOk "q").toolParams
          = [OpenAIClient.openaiCallParams "f" (Json.obj [])]
      ∧ (ClaudeClient.processQuery "m" clLlmOneUse hostTwoBlocks "q").toolParams
          = [[("name", Json.str "f"), ("args", Json.obj [])]] :=
  ⟨rfl, rfl, rfl, rfl, rfl⟩

/-- Executing one block of the Claude loop appends to the recorded LLM
calls only entries whose model is the hard-coded
`"claude-3-5-sonnet-20241022"`. -/
theorem clBlockStep_calls_extend (llm : ClaudeLLMOracle) (host : HostOracle)
    (b : ClaudeBlock) (s : ClaudeClient.CLState) :
    ∃ t : List ClaudeCall,
      ((ClaudeClient.clBlockStep llm host b s).1).calls = s.calls ++ t
        ∧ t.all (fun c => c.model == "claude-3-5-sonnet-20241022") = true := by
  cases b with
  | text t =>
    refine ⟨[], ?_, rfl⟩
    simp [ClaudeClient.clBlockStep]
  | toolUse i nm a =>
    simp only [ClaudeClient.clBlockStep]
    cases host (ClaudeClient.claudeCallParams nm a) with
    | error e =>
      refine ⟨[], ?_, rfl⟩
      simp
    | ok tc =>
      simp only [ClaudeClient.claudeCreate]
      cases llm s.nCalls with
      | error e => exact ⟨_, rfl, rfl⟩
      | ok r =>
        dsimp only
        cases r.content.head? with
        | none => exact ⟨_, rfl, rfl⟩
        | some blk =>
          cases blk with
          | text t2 => exact ⟨_, rfl, rfl⟩
          | toolUse i2 n2 a2 => exact ⟨_, rfl, rfl⟩

/-- Running the Claude block loop appends to the recorded LLM calls only
entries whose model is the hard-coded `"claude-3-5-sonnet-20241022"`. -/
theorem clLoop_calls_extend (llm : ClaudeLLMOracle) (host : HostOracle)
    (bs : List ClaudeBlock) (s : ClaudeClient.CLState) :
    ∃ t : List ClaudeCall,
      ((ClaudeClient.clLoop llm host bs s).1).calls = s.calls ++ t
        ∧ t.all (fun c => c.model == "claude-3-5-sonnet-20241022") = true := by
  induction bs generalizing s with
  | nil =>
    refine ⟨[], ?_, rfl⟩
    simp [ClaudeClient.clLoop]
  | cons b bs ih =>
    obtain ⟨t1, ht1, ha1⟩ := clBlockStep_calls_extend llm host b s
    simp only [ClaudeClient.clLoop]
    cases hstep : ClaudeClient.clBlockStep llm host b s with
    | mk s' e? =>
      rw [hstep] at ht1
      simp only at ht1
      cases e? with
      | some e => exact ⟨t1, ht1, ha1⟩
      | none =>
        obtain ⟨t2, ht2, ha2⟩ := ih s'
        refine ⟨t1 ++ t2, ?_, ?_⟩
        · rw [ht2, ht1, List.append_assoc]
        · simp only [List.all_append, ha1, ha2, Bool.and_self]

/-- From a state whose recorded calls are exactly one call with model
`cfg`, the Claude block loop yields a trace whose first call has model
`cfg` and whose every later call has the hard-coded model. -/
theorem clLoop_models (llm : ClaudeLLMOracle) (host : HostOracle)
    (bs : List ClaudeBlock) (s : ClaudeClient.CLState) (cfg : String)
    (m : List ClaudeMessage) (hs : s.calls = [⟨cfg, m⟩]) :
    ((((ClaudeClient.clLoop llm host bs s).1).calls.map (fun c => c.model)).head?
        = some cfg)
      ∧ (((((ClaudeClient.clLoop llm host bs s).1).calls.map
            (fun c => c.model)).drop 1).all
          (fun x => x == "claude-3-5-sonnet-20241022")) = true := by
  obtain ⟨t, ht, ha⟩ := clLoop_calls_extend llm host bs s
  rw [ht, hs]
  constructor
  · rfl
  · simp only [List.cons_append, List.nil_append, List.map_cons,
      List.drop_succ_cons, List.drop_zero]
    simpa [List.all_map, Function.comp] using ha

/-- C10: in every Claude-variant session, the model identifier of the
first outbound LLM call is the configured `ANTHROPIC_MODEL` value
(`cfg`), and the model identifier of every subsequent call — the calls
made after tool invocations — is the fixed string
`"claude-3-5-sonnet-20241022"`, independent of the configuration. -/
theorem c10_model_identifiers (cfg : String) (llm : ClaudeLLMOracle)
    (host : HostOracle) (q : String) :
    ((ClaudeClient.processQuery cfg llm host q).calls.map
        (fun c => c.model)).head? = some cfg
      ∧ (((ClaudeClient.processQuery cfg llm host q).calls.map
            (fun c => c.model)).drop 1).all
          (fun m => m == "claude-3-5-sonnet-20241022") = true := by
  simp only [ClaudeClient.processQuery, ClaudeClient.claudeCreate]
  cases llm 0 with
  | error e => exact ⟨rfl, rfl⟩
  | ok r => exact clLoop_models llm host r.content _ cfg _ rfl
